import Mathlib

/-!
Verification development for the hospital-inventory conversion program
(`src/src/etl_logic.py`, `src/backend/processing.py`, `src/backend/mappings.py`).

The tabular data model is embedded shallowly:
- a cell of a pandas DataFrame read with `dtype=str` is an `Option String`
  (`none` models NaN / a null cell);
- a DataFrame is an association list from column name to the column's cells
  (`Frame`), mirroring column-wise access `df[col]`;
- a Python `dict` built from string pairs is a `Dict` (association list with
  unique keys, insertion ordered, later inserts overwriting earlier ones);
- dates are `Int` (ordered timestamps); `pd.to_datetime(_, errors := coerce)`
  is an abstract parse function `String -> Option Int` (NaT is `none`).
-/

/-- Generic first-match association lookup; models Python `dict.get` /
pandas column selection `df[c]` on a keyed collection with unique keys. -/
def assocGet {α β : Type} [DecidableEq α] : List (α × β) → α → Option β
  | [], _ => none
  | (k0, b) :: rest, k => if k0 = k then some b else assocGet rest k

/-- A Python `dict` of strings as an insertion-ordered association list with
unique keys. -/
abbrev Dict := List (String × String)

/-- Python `str.strip()`: drop leading and trailing whitespace. Defined
over the character list so that it evaluates by kernel reduction. -/
def strip (s : String) : String :=
  String.mk (((s.data.dropWhile Char.isWhitespace).reverse.dropWhile Char.isWhitespace).reverse)

/-- Python `str.upper()`: character-wise upper-casing, defined over the
character list so that it evaluates by kernel reduction. -/
def upper (s : String) : String :=
  String.mk (s.data.map Char.toUpper)

/-- One `d[k] = v` update of a Python dict: overwrite in place if the key is
present, append otherwise. -/
def dictInsert : Dict → String → String → Dict
  | [], k, v => [(k, v)]
  | (k0, v0) :: rest, k, v =>
    if k0 = k then (k0, v) :: rest else (k0, v0) :: dictInsert rest k v

/-- `dict(zip(keys, vals))`: fold the pairs into a dict, later duplicate keys
overwriting earlier ones. -/
def dictOfPairs (ps : List (String × String)) : Dict :=
  ps.foldl (fun acc p => dictInsert acc p.1 p.2) []

/-- Specification-side lookup on a raw pair list: the value of the LAST pair
whose key equals `k`, if any (last write wins). -/
def lastMatch : List (String × String) → String → Option String
  | [], _ => none
  | p :: rest, k =>
    match lastMatch rest k with
    | some v => some v
    | none => if p.1 = k then some p.2 else none

/-- One worksheet of a mapping workbook as read with `dtype=str`: a raw
(untrimmed) header row and the data rows, each row a list of cells parallel
to the header. -/
structure Sheet where
  header : List String
  rows : List (List (Option String))
deriving DecidableEq

/-- The per-row normalized (key, value) pairs extracted from a mapping sheet:
key cell `fillna('') |> strip |> upper`, value cell `fillna('') |> strip`,
with the two columns located by name in the trimmed header
(embeds `src/backend/mappings.py` lines 30-32 / `src/src/etl_logic.py`
lines 22-23). -/
def normPairs (sh : Sheet) (keyH valH : String) : List (String × String) :=
  sh.rows.map (fun row =>
    (upper (strip ((row.getD ((sh.header.map strip).findIdx (fun c => c == keyH)) none).getD "")),
     strip ((row.getD ((sh.header.map strip).findIdx (fun c => c == valH)) none).getD "")))

/-- The mapping table built from a successfully read sheet: drop rows whose
normalized key is empty, then `dict(zip(keys, vals))`
(embeds `src/backend/mappings.py` lines 30-37 / `src/src/etl_logic.py`
lines 22-25). -/
def buildDict (sh : Sheet) (keyH valH : String) : Dict :=
  dictOfPairs ((normPairs sh keyH valH).filter (fun p => p.1 != ""))

/-- A DataFrame as an association list from column name to that column's
cells (`none` = NaN), mirroring column-wise access `df[col]`. -/
abbrev Frame := List (String × List (Option String))

/-- The per-cell semantics of a `map` rule (identical in
`src/src/etl_logic.py` lines 81-91 and `src/backend/processing.py`
lines 100-111): normalize the source cell with `fillna('') |> strip |>
upper`, look it up in the mapping dict, and on a miss fall back per
`fallback_strategy` — the original post-ingest cell for `source_value`
(a NaN cell stays NaN, since `fillna` with a NaN replacement leaves NaN),
the resolved `default_value` for `default_value`, and the literal `ERR`
otherwise. -/
def applyMapRule (d : Dict) (fb dv : String) (cell : Option String) : Option String :=
  match assocGet d (upper (strip (cell.getD ""))) with
  | some v => some v
  | none =>
    if fb = "source_value" then cell
    else if fb = "default_value" then some dv
    else some "ERR"

/-- The legacy `logic_length` cell transform, embedding the inner `logic`
function of `src/src/etl_logic.py` lines 96-103. Note the Python truthiness
test `if res:`: a mapping hit whose value is the EMPTY string is treated
like a miss and falls through to the fallback. -/
def logic (d : Dict) (maxLen : Nat) (fb : String) (cell : Option String) : String :=
  if (strip (cell.getD "")).length > maxLen then
    match assocGet d (upper (strip (cell.getD ""))) with
    | some res =>
      if res != "" then res
      else if fb = "truncate" then (strip (cell.getD "")).take maxLen
      else strip (cell.getD "")
    | none =>
      if fb = "truncate" then (strip (cell.getD "")).take maxLen
      else strip (cell.getD "")
  else strip (cell.getD "")

/-- The refactored `logic_length` cell transform, embedding the inner
`transform` function of `src/backend/processing.py` lines 127-136. It tests
dict MEMBERSHIP (`in map_dict`), so a hit wins even when its value is the
empty string. -/
def transform (d : Dict) (limit : Nat) (fb : String) (cell : Option String) : String :=
  if (strip (cell.getD "")).length > limit then
    match assocGet d (upper (strip (cell.getD ""))) with
    | some v => v
    | none =>
      if fb = "truncate" then (strip (cell.getD "")).take limit
      else (strip (cell.getD ""))
  else (strip (cell.getD ""))

/-- One joined source record, restricted to the two fields the active filter
consults: the `Actief` status cell and the raw `EindDat` end-date cell. -/
structure SrcRecord where
  actief : Option String
  eindDat : Option String
deriving DecidableEq

/-- `EindDat_Check >= peildatum` on a coerced date: NaT compares False. -/
def dateGE (x : Option Int) (ref : Int) : Bool :=
  match x with
  | none => false
  | some d => decide (ref ≤ d)

/-- The active-record predicate of `src/src/etl_logic.py` lines 56-60 /
`src/backend/processing.py` lines 55-58: `Actief == 'J'` and
(`EindDat_Check` is NaT or `EindDat_Check >= reference_date`), where
`EindDat_Check = pd.to_datetime(EindDat, errors='coerce')` is modelled by
the abstract parse function (`none` for both a null and an unparseable
cell). -/
def activeCond (parse : String → Option Int) (ref : Int) (r : SrcRecord) : Bool :=
  (r.actief == some "J")
    && ((r.eindDat.bind parse).isNone || dateGE (r.eindDat.bind parse) ref)

/-- Row filtering `df[mask].copy().reset_index(drop=True)` as a list filter
(row order preserved, original indices dropped). -/
def filter_active_records (parse : String → Option Int) (ref : Int)
    (rs : List SrcRecord) : List SrcRecord :=
  rs.filter (activeCond parse ref)

/-- One field rule of the configuration; every key of the JSON rule object
is optional (`rules.get` vs `rules[...]` distinguishes soft and raising
access in the source). -/
structure Rule where
  type : Option String
  source : Option String
  map_file : Option String
  sheet_name : Option String
  map_key : Option String
  map_value : Option String
  fallback_strategy : Option String
  default_value : Option String
  max_length : Option Nat
deriving DecidableEq

/-- Outcome of dispatching one rule: a Python exception, no branch taken
(unknown rule type assigns nothing), or a produced target column. -/
inductive RuleResult where
  | raised
  | skipped
  | col (cells : List (Option String))
deriving DecidableEq

/-- The legacy dispatch body (`src/src/etl_logic.py` lines 76-104), run
inside the per-field `try` with the mapping dict `d` already resolved.
`rules['type']` and `rules['source']` raise `KeyError` when absent, and a
missing source column raises; both are `.raised`. An unknown type matches
no branch. -/
def dispatchLegacy (d : Dict) (site : String) (frame : Frame) (n : Nat)
    (r : Rule) : RuleResult :=
  match r.type with
  | none => .raised
  | some t =>
    if t = "filename_extraction" then .col (List.replicate n (some site))
    else if t = "direct" then
      match r.source with
      | none => .raised
      | some c =>
        match assocGet frame c with
        | none => .raised
        | some cells => .col cells
    else if t = "map" then
      match r.source with
      | none => .raised
      | some c =>
        match assocGet frame c with
        | none => .raised
        | some cells =>
          .col (cells.map (applyMapRule d (r.fallback_strategy.getD "error")
            (r.default_value.getD "")))
    else if t = "logic_length" then
      match r.source with
      | none => .raised
      | some c =>
        match assocGet frame c with
        | none => .raised
        | some cells =>
          .col (cells.map (fun x =>
            some (logic d (r.max_length.getD 40)
              (r.fallback_strategy.getD "truncate") x)))
    else .skipped

/-- Mapping resolution of the refactored `_apply_mapping_rule`
(`src/backend/processing.py` lines 90-98): both column names are fetched
with `rule.get`, so an absent `map_key`/`map_value` is passed through as
`None` and never raises here. -/
def resolveBackendMap (resolve : String → String → Option String → Option String → Dict)
    (r : Rule) : Dict :=
  match r.map_file with
  | none => []
  | some f => resolve f (r.sheet_name.getD "0") r.map_key r.map_value

/-- Mapping resolution of the refactored `_apply_length_logic`
(`src/backend/processing.py` lines 118-125): `rule['map_value']` raises
`KeyError` when `map_file` is present but `map_value` absent; `map_key`
uses `rule.get`. -/
def resolveBackendLength (resolve : String → String → Option String → Option String → Dict)
    (r : Rule) : Except Unit Dict :=
  match r.map_file with
  | none => .ok []
  | some f =>
    match r.map_value with
    | none => .error ()
    | some vc => .ok (resolve f (r.sheet_name.getD "0") r.map_key (some vc))

/-- The refactored per-rule evaluation (`src/backend/processing.py`
lines 67-138): everything, the mapping resolution included, happens inside
the per-field `try` of `_process_fields`. `rule.get('type')` makes an
absent type a skip, not an exception. -/
def dispatchBackend (resolve : String → String → Option String → Option String → Dict)
    (site : String) (frame : Frame) (n : Nat) (r : Rule) : RuleResult :=
  match r.type with
  | none => .skipped
  | some t =>
    if t = "filename_extraction" then .col (List.replicate n (some site))
    else if t = "direct" then
      match r.source with
      | none => .raised
      | some c =>
        match assocGet frame c with
        | none => .raised
        | some cells => .col cells
    else if t = "map" then
      match r.source with
      | none => .raised
      | some c =>
        match assocGet frame c with
        | none => .raised
        | some cells =>
          .col (cells.map (applyMapRule (resolveBackendMap resolve r)
            (r.fallback_strategy.getD "error") (r.default_value.getD "")))
    else if t = "logic_length" then
      match r.source with
      | none => .raised
      | some c =>
        match resolveBackendLength resolve r with
        | .error _ => .raised
        | .ok d =>
          match assocGet frame c with
          | none => .raised
          | some cells =>
            .col (cells.map (fun x =>
              some (transform d (r.max_length.getD 40)
                (r.fallback_strategy.getD "truncate") x)))
    else .skipped

/-- The legacy pre-dispatch mapping resolution (`src/src/etl_logic.py`
lines 67-75), which runs OUTSIDE the per-field `try`: on a cache miss with
`map_file` present, `rules['map_key']` / `rules['map_value']` raise
`KeyError` when absent, escaping the field loop. The legacy cache is keyed
by `f"{fname}_{sheet}"` only. `load` abstracts `load_excel_mapping`
(total: it catches all its own errors). -/
def legacyResolve (load : String → String → String → String → Dict)
    (cache : List (String × Dict)) (r : Rule) :
    Except Unit (Dict × List (String × Dict)) :=
  match r.map_file with
  | none => .ok ([], cache)
  | some f =>
    match assocGet cache (f ++ "_" ++ r.sheet_name.getD "0") with
    | some d => .ok (d, cache)
    | none =>
      match r.map_key, r.map_value with
      | some kc, some vc =>
        .ok (load f (r.sheet_name.getD "0") kc vc,
          (f ++ "_" ++ r.sheet_name.getD "0", load f (r.sheet_name.getD "0") kc vc) :: cache)
      | _, _ => .error ()

/-- The legacy field loop (`src/src/etl_logic.py` lines 64-106): per field,
resolve the mapping (uncaught on failure — `.error` aborts the whole run),
then dispatch inside `try`, writing an all-`"ERROR"` column on a caught
exception, and continue with the remaining rules. -/
def runFieldsLegacy (load : String → String → String → String → Dict)
    (site : String) (frame : Frame) (n : Nat) :
    List (String × Rule) → List (String × Dict) →
      Except Unit (List (String × List (Option String)))
  | [], _ => .ok []
  | (fld, r) :: rest, cache =>
    match legacyResolve load cache r with
    | .error e => .error e
    | .ok (d, cache') =>
      match runFieldsLegacy load site frame n rest cache' with
      | .error e => .error e
      | .ok out =>
        .ok ((match dispatchLegacy d site frame n r with
              | .raised => [(fld, List.replicate n (some "ERROR"))]
              | .skipped => []
              | .col cs => [(fld, cs)]) ++ out)

/-- The refactored field loop (`src/backend/processing.py` lines 62-86):
the whole rule evaluation sits inside the per-field `try`, so the loop is
total — a raising rule yields an all-`"ERROR"` column and processing
continues. -/
def runFieldsBackend (resolve : String → String → Option String → Option String → Dict)
    (site : String) (frame : Frame) (n : Nat) :
    List (String × Rule) → List (String × List (Option String))
  | [] => []
  | (fld, r) :: rest =>
    (match dispatchBackend resolve site frame n r with
     | .raised => [(fld, List.replicate n (some "ERROR"))]
     | .skipped => []
     | .col cs => [(fld, cs)]) ++ runFieldsBackend resolve site frame n rest

/-- A header cell of the template workbook's row 4 (zero-based): either a
string or something else (`isinstance(c, str)` fails). -/
inductive HCell where
  | str (s : String)
  | nonstr
deriving DecidableEq

/-- The validated template column list: the string-valued header cells,
trimmed, in header order (`[c.strip() for c in tpl_df.columns if
isinstance(c, str)]`). -/
def validCols (hdr : List HCell) : List String :=
  hdr.filterMap (fun c =>
    match c with
    | .str s => some (strip s)
    | .nonstr => none)

/-- `df_target.reindex(columns=valid_cols).fillna("")`: one output column
per requested name in order — the existing column with NaN cells filled by
the empty string when present, an all-empty column of the output's row
count otherwise. -/
def reindexFill (f : Frame) (n : Nat) (cols : List String) :
    List (String × List String) :=
  cols.map (fun c =>
    match assocGet f c with
    | some cells => (c, cells.map (fun x => x.getD ""))
    | none => (c, List.replicate n ""))

/-- The `if 'WERKS' in df.columns: df['WERKS'] = site_code` overwrite that
both implementations apply after reindexing. -/
def forceWerks (site : String) (n : Nat) (out : List (String × List String)) :
    List (String × List String) :=
  out.map (fun p => if p.1 = "WERKS" then (p.1, List.replicate n site) else p)

/-- The template aligner's success path (`src/src/etl_logic.py`
lines 116-123 / `src/backend/processing.py` lines 157-171), given the
already-read header row `hdr`, the output frame `f` with `n` rows and the
run's site code. The surrounding `try` (soft failure returning the
unaligned output) is outside this model: the claims condition on a
successfully read template. -/
def enforceTemplate (hdr : List HCell) (site : String) (f : Frame) (n : Nat) :
    List (String × List String) :=
  forceWerks site n (reindexFill f n (validCols hdr))

/-- The ingestion fallback chain (`src/src/etl_logic.py` lines 41-50 /
`src/backend/processing.py` lines 31-42): try the worksheets named
`Artikels` and `Locatie` of the input workbook; on any failure try the
sibling flat files `Artikels.csv` and `Locatie.csv`; on failure of both
signal "no data" with `none`. `readSheet` abstracts
`pd.read_excel(source, sheet_name=...)` and `readCsv` abstracts
`pd.read_csv(dir / name)` (`none` = the read raised). -/
def load_raw_frames (readSheet readCsv : String → Option Frame) :
    Option (Frame × Frame) :=
  match readSheet "Artikels", readSheet "Locatie" with
  | some a, some l => some (a, l)
  | _, _ =>
    match readCsv "Artikels.csv", readCsv "Locatie.csv" with
    | some a, some l => some (a, l)
    | _, _ => none

/-- Ingestion result handed to the rest of the pipeline: the cleaned
left-outer join of the two frames on success, the empty record set on
double failure — never an exception. The trim-and-join of
`src/src/etl_logic.py` lines 51-55 is abstracted by the `merge` parameter;
the claims about this function concern only the fallback chain. -/
def load_raw_data (merge : Frame → Frame → Frame)
    (readSheet readCsv : String → Option Frame) : Frame :=
  match load_raw_frames readSheet readCsv with
  | some (a, l) => merge a l
  | none => []

/-- Modelled from the spec: the fallback chain exactly as claim C6 words
it, with the sibling flat files named `Articles.csv` and `Locations.csv`
(the code under src/ uses `Artikels.csv` and `Locatie.csv` instead). -/
def load_raw_frames_spec (readSheet readCsv : String → Option Frame) :
    Option (Frame × Frame) :=
  match readSheet "Artikels", readSheet "Locatie" with
  | some a, some l => some (a, l)
  | _, _ =>
    match readCsv "Articles.csv", readCsv "Locations.csv" with
    | some a, some l => some (a, l)
    | _, _ => none

/-- The composite cache key of `MappingService.get_mapping_dict`:
(filename, sheet, key column header, value column header). -/
abbrev MKey := String × String × String × String

/-- The state of a `MappingService` instance: its `_memory_cache`. -/
structure MapSvc where
  cache : List (MKey × Dict)
deriving DecidableEq

/-- Result of one `get_mapping_dict` call: the returned table, the service
state afterwards, whether the call was answered by the cache, and whether
the workbook was read (i.e. `pd.read_excel` was reached). -/
structure GetResult where
  table : Dict
  svc : MapSvc
  fromCache : Bool
  didRead : Bool
deriving DecidableEq

/-- `MappingService.get_mapping_dict` (`src/backend/mappings.py`
lines 12-42) over an abstract file system `fs` (filename to workbook,
workbook = sheet name to sheet; `none` models a missing file / a read
exception). Note which exits cache: only a successful build is stored —
the missing-file, missing-sheet and missing-column exits return the empty
dict WITHOUT touching the cache. -/
def get_mapping_dict (fs : String → Option (String → Option Sheet))
    (svc : MapSvc) (filename sheet keyH valH : String) : GetResult :=
  match assocGet svc.cache (filename, sheet, keyH, valH) with
  | some d => ⟨d, svc, true, false⟩
  | none =>
    match fs filename with
    | none => ⟨[], svc, false, false⟩
    | some wb =>
      match wb sheet with
      | none => ⟨[], svc, false, true⟩
      | some sh =>
        if keyH ∈ sh.header.map strip
            ∧ valH ∈ sh.header.map strip then
          ⟨buildDict sh keyH valH,
            ⟨((filename, sheet, keyH, valH), buildDict sh keyH valH) :: svc.cache⟩,
            false, true⟩
        else ⟨[], svc, false, true⟩

/-- Concrete mapping table sending the over-length key `ABCD` to the empty
string. -/
def tblEmptyHit : Dict := [("ABCD", "")]

/-- Concrete mapping table sending the over-length key `WXYZ` to the empty
string. -/
def tblEmptyHit2 : Dict := [("WXYZ", "")]

/-- Concrete one-column, one-row source frame. -/
def frame0 : Frame := [("A", [some "x"])]

/-- Concrete `load_excel_mapping` stub: every lookup table loads empty. -/
def load0 : String → String → String → String → Dict := fun _ _ _ _ => []

/-- Concrete `get_mapping_dict` stub for the refactored engine. -/
def resolve0 : String → String → Option String → Option String → Dict :=
  fun _ _ _ _ => []

/-- A `map` rule referencing a mapping workbook but with `map_key` absent —
a faulty lookup configuration. -/
def badRule : Rule :=
  ⟨some "map", some "A", some "m.xlsx", none, none, none, none, none, none⟩

/-- A well-formed `direct` rule on column `A`. -/
def goodRule : Rule :=
  ⟨some "direct", some "A", none, none, none, none, none, none, none⟩

/-- A `direct` rule whose `source` key is absent: `rules['source']` raises
inside the dispatch. -/
def ruleNoSource : Rule :=
  ⟨some "direct", none, none, none, none, none, none, none, none⟩

/-- Concrete workbook reader with no readable sheets. -/
def noSheets : String → Option Frame := fun _ => none

/-- Concrete sibling directory holding flat files under the ENGLISH names
the claim announces, and nothing else. -/
def csvOnlyEnglish : String → Option Frame := fun nm =>
  if nm = "Articles.csv" then some [("A", [some "1"])]
  else if nm = "Locations.csv" then some [("L", [some "2"])]
  else none

/-- Concrete mapping sheet whose trimmed header lacks the requested key
column `K`. -/
def sheetNoKeyCol : Sheet := ⟨["A", "V"], [[some "x", some "y"]]⟩

/-- Concrete file system: `m.xlsx` exists and its sheet `S` lacks column
`K`. -/
def fsNoKeyCol : String → Option (String → Option Sheet) := fun f =>
  if f = "m.xlsx" then some (fun s => if s = "S" then some sheetNoKeyCol else none)
  else none

/-- Concrete file system with no files at all. -/
def fsEmpty : String → Option (String → Option Sheet) := fun _ => none

/-- Concrete well-formed mapping sheet with columns `K` and `V`. -/
def sheetKV : Sheet := ⟨["K", "V"], [[some "a", some "b"]]⟩

/-- Concrete workbook carrying `sheetKV` under sheet name `S`. -/
def wbKV : String → Option Sheet := fun s => if s = "S" then some sheetKV else none

/-- Concrete file system: `m.xlsx` resolves to `wbKV`. -/
def fsKV : String → Option (String → Option Sheet) := fun f =>
  if f = "m.xlsx" then some wbKV else none

/-- Concrete source record: active, no end date. -/
def recActiveNoDate : SrcRecord := ⟨some "J", none⟩

theorem assocGet_dictInsert (d : Dict) (k v k' : String) :
    assocGet (dictInsert d k v) k' = if k = k' then some v else assocGet d k' := by
  induction d with
  | nil => simp [dictInsert, assocGet]
  | cons p rest ih =>
    obtain ⟨k0, v0⟩ := p
    by_cases h0 : k0 = k
    · subst h0
      by_cases h1 : k0 = k' <;> simp [dictInsert, assocGet, h1]
    · by_cases h1 : k0 = k'
      · subst h1
        have : ¬ k = k0 := fun h => h0 h.symm
        simp [dictInsert, assocGet, h0, this]
      · simp [dictInsert, assocGet, h0, h1, ih]

theorem assocGet_foldl_insert (ps : List (String × String)) (d : Dict) (k : String) :
    assocGet (ps.foldl (fun acc p => dictInsert acc p.1 p.2) d) k
      = match lastMatch ps k with
        | some v => some v
        | none => assocGet d k := by
  induction ps generalizing d with
  | nil => simp [lastMatch]
  | cons p rest ih =>
    simp only [List.foldl_cons, lastMatch]
    rw [ih]
    cases h : lastMatch rest k with
    | some v => simp
    | none =>
      simp only [assocGet_dictInsert]
      by_cases hpk : p.1 = k <;> simp [hpk]

theorem assocGet_dictOfPairs (ps : List (String × String)) (k : String) :
    assocGet (dictOfPairs ps) k = lastMatch ps k := by
  rw [dictOfPairs, assocGet_foldl_insert]
  cases lastMatch ps k <;> simp [assocGet]

theorem lastMatch_filter_ne_empty (ps : List (String × String)) (k : String) :
    lastMatch (ps.filter (fun p => p.1 != "")) k
      = if k = "" then none else lastMatch ps k := by
  induction ps with
  | nil => simp [lastMatch]
  | cons p rest ih =>
    by_cases hp : p.1 = ""
    · by_cases hk : k = ""
      · simp only [List.filter_cons, hp, ih, hk] at *
        simp [lastMatch, ih, hk, hp]
      · have hne : p.1 ≠ k := by rw [hp]; exact fun h => hk h.symm
        simp only [List.filter_cons]
        simp only [hp, lastMatch, ih, hk]
        simp only [bne_self_eq_false, Bool.false_eq_true, if_false]
        rw [ih]
        simp only [hk, if_false]
        have h2 : ¬ ("" = k) := fun h => hk h.symm
        cases lastMatch rest k <;> simp [hne, h2]
    · by_cases hk : k = ""
      · subst hk
        have hne : p.1 ≠ "" := hp
        simp only [List.filter_cons]
        simp [hp, lastMatch, ih]
      · simp only [List.filter_cons]
        simp [hp, lastMatch, ih, hk]

/-- C9: for every successfully read mapping worksheet, the built mapping
table contains exactly the rows whose normalized (trimmed, upper-cased) key
is non-empty, each key mapped to the trimmed value of the LAST row in sheet
order carrying that normalized key (last write wins); a query for the empty
key never hits. -/
theorem c9_last_write_wins (sh : Sheet) (keyH valH k : String) :
    assocGet (buildDict sh keyH valH) k
      = if k = "" then none else lastMatch (normPairs sh keyH valH) k := by
  rw [buildDict, assocGet_dictOfPairs, lastMatch_filter_ne_empty]

/-- C3: for every `map` rule cell, the engine normalizes (trim +
upper-case) and looks the value up in the resolved table; a hit yields the
mapped value, and a miss yields the original (post-ingest) source cell for
`fallback_strategy = source_value`, the resolved `default_value` constant
for `default_value`, and the literal `ERR` for any other strategy,
including the default `error`. -/
theorem c3_map_fallback (d : Dict) (fb dv : String) (cell : Option String) :
    (∀ v, assocGet d (upper (strip (cell.getD ""))) = some v →
      applyMapRule d fb dv cell = some v) ∧
    (assocGet d (upper (strip (cell.getD ""))) = none →
      applyMapRule d fb dv cell =
        if fb = "source_value" then cell
        else if fb = "default_value" then some dv
        else some "ERR") := by
  constructor
  · intro v hv
    simp [applyMapRule, hv]
  · intro hv
    simp [applyMapRule, hv]

/-- Closed witness for `c3_map_fallback`: the spec scenario — table
sending KG to ST, unmapped input `box`, strategy `error` — resolves to the
`ERR` sentinel. -/
theorem c3_witness :
    applyMapRule [("KG", "ST")] "error" "" (some "box") =
      if "error" = "source_value" then some "box"
      else if "error" = "default_value" then some ""
      else some "ERR" :=
  (c3_map_fallback [("KG", "ST")] "error" "" (some "box")).2 (by decide)

/-- C4 (amended): per `logic_length` cell, the value is trimmed; at or under
`max_length` (engine default 40) it passes through unchanged apart from
trimming — in particular a value of length exactly `max_length` is never
truncated. Over the limit, a normalized mapping hit with a NON-EMPTY mapped
value wins regardless of length in both engines (the refactored `transform`
honors any hit, while the legacy `logic` treats an empty-valued hit as a
miss); on a miss the value is truncated to exactly `max_length` characters
iff `fallback_strategy` is `truncate` (the default), any other strategy
leaving the over-length value untouched. -/
theorem c4_length_rule (d : Dict) (m : Nat) (fb : String) (cell : Option String) :
    ((strip (cell.getD "")).length ≤ m →
      logic d m fb cell = strip (cell.getD "") ∧
      transform d m fb cell = strip (cell.getD "")) ∧
    ((strip (cell.getD "")).length > m →
      (∀ v, assocGet d (upper (strip (cell.getD ""))) = some v →
        transform d m fb cell = v ∧ (v ≠ "" → logic d m fb cell = v)) ∧
      (assocGet d (upper (strip (cell.getD ""))) = none →
        logic d m fb cell =
          (if fb = "truncate" then (strip (cell.getD "")).take m
           else strip (cell.getD "")) ∧
        transform d m fb cell =
          (if fb = "truncate" then (strip (cell.getD "")).take m
           else strip (cell.getD ""))) ∧
      (assocGet d (upper (strip (cell.getD ""))) = some "" →
        logic d m fb cell =
          (if fb = "truncate" then (strip (cell.getD "")).take m
           else strip (cell.getD "")))) := by
  constructor
  · intro hle
    have hnl : ¬ ((strip (cell.getD "")).length > m) := Nat.not_lt.mpr hle
    simp [logic, transform, hnl]
  · intro hgt
    refine ⟨?_, ?_, ?_⟩
    · intro v hv
      refine ⟨by simp [transform, hgt, hv], ?_⟩
      intro hvne
      simp [logic, hgt, hv, hvne]
    · intro hv
      exact ⟨by simp [logic, hgt, hv], by simp [transform, hgt, hv]⟩
    · intro hv
      simp [logic, hgt, hv]

/-- Counterexample to C4 as stated: in the legacy engine a normalized
mapping-table hit does NOT always win — with `max_length = 2` and the table
sending `ABCD` to the empty string, the over-length cell `abcd` hits the
table, yet `logic` returns the truncation `ab` instead of the mapped value
(Python `if res:` treats the empty string like a miss). -/
theorem c4_counterexample :
    assocGet tblEmptyHit (upper (strip ((some "abcd").getD ""))) = some "" ∧
    logic tblEmptyHit 2 "truncate" (some "abcd") = "ab" ∧
    logic tblEmptyHit 2 "truncate" (some "abcd") ≠ "" := by
  refine ⟨by decide, by decide, by decide⟩

/-- Closed witness for `c4_length_rule`: a cell of length exactly the limit
passes through untruncated in both engines. -/
theorem c4_witness :
    logic [] 4 "truncate" (some "abcd") = strip ((some "abcd").getD "") ∧
    transform [] 4 "truncate" (some "abcd") = strip ((some "abcd").getD "") :=
  (c4_length_rule [] 4 "truncate" (some "abcd")).1 (by decide)

/-- C10 (amended): the legacy `logic_length` cell transform and the
refactored one agree on every input EXCEPT an over-length value whose
normalized key is present in the mapping table with the empty string as its
value (there the refactored engine returns the empty mapped value while the
legacy engine applies the fallback). -/
theorem c10_equivalence (d : Dict) (m : Nat) (fb : String) (cell : Option String)
    (h : ¬ ((strip (cell.getD "")).length > m ∧
      assocGet d (upper (strip (cell.getD ""))) = some "")) :
    logic d m fb cell = transform d m fb cell := by
  by_cases hl : (strip (cell.getD "")).length > m
  · cases hv : assocGet d (upper (strip (cell.getD ""))) with
    | none => simp [logic, transform, hl, hv]
    | some v =>
      have hv' : v ≠ "" := by
        intro hveq
        exact h ⟨hl, by rw [hv, hveq]⟩
      simp [logic, transform, hl, hv, hv']
  · simp [logic, transform, hl]

/-- Counterexample to C10 as stated: the two `logic_length` cell transforms
disagree on an over-length value whose normalized key maps to the empty
string — legacy truncates, refactored returns the empty mapped value. -/
theorem c10_counterexample :
    logic tblEmptyHit2 3 "truncate" (some "wxyz") = "wxy" ∧
    transform tblEmptyHit2 3 "truncate" (some "wxyz") = "" ∧
    logic tblEmptyHit2 3 "truncate" (some "wxyz")
      ≠ transform tblEmptyHit2 3 "truncate" (some "wxyz") := by
  refine ⟨by decide, by decide, by decide⟩

/-- Closed witness for `c10_equivalence`: on a short (not over-length)
value the two transforms agree. -/
theorem c10_witness :
    logic [] 5 "truncate" (some "hi") = transform [] 5 "truncate" (some "hi") :=
  c10_equivalence [] 5 "truncate" (some "hi") (by decide)

/-- C2: the active-record filter keeps a record iff its `Actief` cell
equals the literal `J` and (its `EindDat` cell is null or fails to parse —
both coerce to NaT — or the parsed end-date is on or after the reference
date); and a record whose end-date is absent or unparseable is never
excluded on date grounds (only the status flag can exclude it). -/
theorem c2_active_filter (parse : String → Option Int) (ref : Int)
    (rs : List SrcRecord) (r : SrcRecord) :
    (r ∈ filter_active_records parse ref rs ↔
      (r ∈ rs ∧ r.actief = some "J" ∧
        (r.eindDat.bind parse = none ∨
          ∃ d, r.eindDat.bind parse = some d ∧ ref ≤ d))) ∧
    (r.eindDat.bind parse = none →
      (r ∈ filter_active_records parse ref rs ↔
        (r ∈ rs ∧ r.actief = some "J"))) := by
  have hchar : ∀ x : SrcRecord, activeCond parse ref x = true ↔
      (x.actief = some "J" ∧
        (x.eindDat.bind parse = none ∨
          ∃ d, x.eindDat.bind parse = some d ∧ ref ≤ d)) := by
    intro x
    unfold activeCond
    cases h : x.eindDat.bind parse with
    | none => simp [h, dateGE]
    | some d => simp [h, dateGE]
  constructor
  · rw [filter_active_records, List.mem_filter, hchar]
  · intro h
    rw [filter_active_records, List.mem_filter, hchar]
    simp [h]

/-- Closed witness for `c2_active_filter`: an active record with no end
date is kept whatever the reference date. -/
theorem c2_witness :
    recActiveNoDate ∈ filter_active_records (fun _ => none) 0 [recActiveNoDate] ↔
      (recActiveNoDate ∈ [recActiveNoDate] ∧ recActiveNoDate.actief = some "J") :=
  (c2_active_filter (fun _ => none) 0 [recActiveNoDate] recActiveNoDate).2 (by decide)

/-- C1 (amended): an exception raised inside a rule's DISPATCH (missing
source column, missing `source`/`type` key) is caught per field: the target
column is set to the all-`"ERROR"` column, every later rule is still
evaluated, and the run does not abort — unconditionally so in the
refactored engine (which is total), and in the legacy engine whenever the
pre-dispatch mapping resolution succeeded; but an exception raised by the
legacy mapping RESOLUTION (uncached `map_file` rule with `map_key` or
`map_value` absent) is not caught and aborts the whole conversion. -/
theorem c1_field_isolation
    (resolve : String → String → Option String → Option String → Dict)
    (load : String → String → String → String → Dict)
    (site : String) (frame : Frame) (n : Nat) :
    (∀ pre post fld r, dispatchBackend resolve site frame n r = .raised →
      runFieldsBackend resolve site frame n (pre ++ (fld, r) :: post)
        = runFieldsBackend resolve site frame n pre
          ++ (fld, List.replicate n (some "ERROR"))
            :: runFieldsBackend resolve site frame n post) ∧
    (∀ fld r rest cache d cache',
      legacyResolve load cache r = .ok (d, cache') →
      dispatchLegacy d site frame n r = .raised →
      runFieldsLegacy load site frame n ((fld, r) :: rest) cache
        = match runFieldsLegacy load site frame n rest cache' with
          | .error e => .error e
          | .ok out => .ok ((fld, List.replicate n (some "ERROR")) :: out)) ∧
    (∀ fld r rest cache, legacyResolve load cache r = .error () →
      runFieldsLegacy load site frame n ((fld, r) :: rest) cache = .error ()) := by
  refine ⟨?_, ?_, ?_⟩
  · intro pre post fld r hr
    induction pre with
    | nil => simp [runFieldsBackend, hr]
    | cons p pre ih =>
      obtain ⟨f0, r0⟩ := p
      simp only [List.cons_append, runFieldsBackend, List.append_eq, ih,
        List.append_assoc]
  · intro fld r rest cache d cache' hres hdisp
    simp only [runFieldsLegacy, hres, hdisp]
    cases runFieldsLegacy load site frame n rest cache' <;> simp
  · intro fld r rest cache hres
    simp [runFieldsLegacy, hres]

/-- Counterexample to C1 as stated: in the legacy engine a `map` rule whose
lookup configuration is faulty (`map_file` present, `map_key` absent)
raises OUTSIDE the per-field `try` — the run aborts, no `"ERROR"` column is
produced, and the following well-formed rule is never evaluated. -/
theorem c1_counterexample :
    runFieldsLegacy load0 "ZH01" frame0 1
      [("F1", badRule), ("F2", goodRule)] [] = .error () := by
  rfl

/-- Closed witness for `c1_field_isolation`: a `direct` rule with no
`source` key raises in the refactored dispatch and yields exactly one
all-`"ERROR"` column. -/
theorem c1_witness :
    runFieldsBackend resolve0 "ZH01" frame0 1 ([] ++ ("F", ruleNoSource) :: [])
      = runFieldsBackend resolve0 "ZH01" frame0 1 []
        ++ ("F", List.replicate 1 (some "ERROR"))
          :: runFieldsBackend resolve0 "ZH01" frame0 1 [] :=
  (c1_field_isolation resolve0 load0 "ZH01" frame0 1).1 [] [] "F" ruleNoSource (by decide)


theorem forceWerks_reindexFill_fst (site : String) (f : Frame) (n : Nat)
    (cols : List String) :
    (forceWerks site n (reindexFill f n cols)).map Prod.fst = cols := by
  induction cols with
  | nil => rfl
  | cons c rest ih =>
    simp only [reindexFill, forceWerks, List.map_cons, List.map_map] at ih ⊢
    cases hg : assocGet f c with
    | some cells => by_cases hw : c = "WERKS" <;> simp [hg, hw, ih]
    | none => by_cases hw : c = "WERKS" <;> simp [hg, hw, ih]

theorem forceWerks_reindexFill_mem (site : String) (f : Frame) (n : Nat)
    (cols : List String) (c : String) (cells : List String)
    (h : (c, cells) ∈ forceWerks site n (reindexFill f n cols)) :
    (c = "WERKS" → cells = List.replicate n site) ∧
    (c ≠ "WERKS" → assocGet f c = none → cells = List.replicate n "") := by
  induction cols with
  | nil => simp [forceWerks, reindexFill] at h
  | cons c0 rest ih =>
    simp only [reindexFill, List.map_cons, forceWerks] at h
    rcases List.mem_cons.mp h with hhead | htail
    · cases hg : assocGet f c0 with
      | some cs =>
        simp only [hg] at hhead
        by_cases hw : c0 = "WERKS"
        · simp only [hw, if_true] at hhead
          rw [Prod.mk.injEq] at hhead
          obtain ⟨rfl, rfl⟩ := hhead
          exact ⟨fun _ => rfl, fun hne _ => absurd rfl hne⟩
        · simp only [hw, if_false] at hhead
          rw [Prod.mk.injEq] at hhead
          obtain ⟨rfl, rfl⟩ := hhead
          refine ⟨fun hcw => absurd hcw hw, fun _ hnone => ?_⟩
          rw [hg] at hnone
          cases hnone
      | none =>
        simp only [hg] at hhead
        by_cases hw : c0 = "WERKS"
        · simp only [hw, if_true] at hhead
          rw [Prod.mk.injEq] at hhead
          obtain ⟨rfl, rfl⟩ := hhead
          exact ⟨fun _ => rfl, fun hne _ => absurd rfl hne⟩
        · simp only [hw, if_false] at hhead
          rw [Prod.mk.injEq] at hhead
          obtain ⟨rfl, rfl⟩ := hhead
          exact ⟨fun hcw => absurd hcw hw, fun _ _ => rfl⟩
    · exact ih (by simpa [forceWerks, reindexFill] using htail)

/-- C5 (amended): on a successfully read template header, the aligned
result's column membership and order equal the validated template column
list exactly (its string-valued, trimmed header cells); every output column
outside that list is dropped; and every list column absent from the output
is present and filled with the empty string for all rows — EXCEPT the
site-code column `WERKS`, which, when present in the list, is forcibly
overwritten with the run's site code for all rows after reindexing. -/
theorem c5_template_alignment (hdr : List HCell) (site : String) (f : Frame)
    (n : Nat) :
    (enforceTemplate hdr site f n).map Prod.fst = validCols hdr ∧
    (∀ c cells, (c, cells) ∈ enforceTemplate hdr site f n →
      (c = "WERKS" → cells = List.replicate n site) ∧
      (c ≠ "WERKS" → assocGet f c = none → cells = List.replicate n "")) ∧
    (∀ c, c ∉ validCols hdr →
      ∀ cells, (c, cells) ∉ enforceTemplate hdr site f n) := by
  refine ⟨forceWerks_reindexFill_fst site f n (validCols hdr), ?_, ?_⟩
  · intro c cells hmem
    exact forceWerks_reindexFill_mem site f n (validCols hdr) c cells hmem
  · intro c hc cells hmem
    apply hc
    rw [← forceWerks_reindexFill_fst site f n (validCols hdr)]
    exact List.mem_map_of_mem Prod.fst hmem

/-- Counterexample to C5 as stated: with template column list `["WERKS"]`,
an output lacking that column, one row and site code `ZH01`, the aligned
result carries `ZH01`, not the empty string, in the absent list column. -/
theorem c5_counterexample :
    enforceTemplate [HCell.str "WERKS"] "ZH01" [] 1 = [("WERKS", ["ZH01"])] ∧
    enforceTemplate [HCell.str "WERKS"] "ZH01" [] 1 ≠ [("WERKS", [""])] := by
  refine ⟨by decide, by decide⟩

/-- Closed witness for `c5_template_alignment`: a non-`WERKS` template
column absent from the output is filled with the empty string. -/
theorem c5_witness :
    ("MAKTX", [""]) ∈ enforceTemplate [HCell.str "MAKTX"] "ZH01" [] 1 ∧
    [""] = List.replicate 1 "" :=
  ⟨by decide,
    ((c5_template_alignment [HCell.str "MAKTX"] "ZH01" [] 1).2.1 "MAKTX" [""]
      (by decide)).2 (by decide) (by decide)⟩

/-- C6 (amended): ingestion first tries the two named worksheets
(`Artikels`, `Locatie`); on any failure it falls back to the sibling flat
files named `Artikels.csv` and `Locatie.csv` (NOT `Articles.csv` /
`Locations.csv` as the spec words it) from the same directory; if that also
fails it returns the empty record set — the function is total, so no
exception reaches the caller. -/
theorem c6_ingestion_fallback (merge : Frame → Frame → Frame)
    (readSheet readCsv : String → Option Frame) :
    (∀ a l, readSheet "Artikels" = some a → readSheet "Locatie" = some l →
      load_raw_data merge readSheet readCsv = merge a l) ∧
    ((readSheet "Artikels" = none ∨ readSheet "Locatie" = none) →
      (∀ a l, readCsv "Artikels.csv" = some a → readCsv "Locatie.csv" = some l →
        load_raw_data merge readSheet readCsv = merge a l) ∧
      ((readCsv "Artikels.csv" = none ∨ readCsv "Locatie.csv" = none) →
        load_raw_data merge readSheet readCsv = [])) := by
  constructor
  · intro a l ha hl
    simp [load_raw_data, load_raw_frames, ha, hl]
  · intro hex
    have hred : load_raw_frames readSheet readCsv
        = (match readCsv "Artikels.csv", readCsv "Locatie.csv" with
           | some a, some l => some (a, l)
           | _, _ => none) := by
      rw [load_raw_frames]
      rcases hex with h | h
      · rw [h]
      · rw [h]
        cases readSheet "Artikels" <;> rfl
    constructor
    · intro a l ha hl
      rw [load_raw_data, hred, ha, hl]
    · rintro (hc | hc)
      · rw [load_raw_data, hred, hc]
      · rw [load_raw_data, hred]
        cases ha : readCsv "Artikels.csv" with
        | none => rfl
        | some a => rw [hc]

/-- Counterexample to C6 as stated: a directory holding exactly the files
the claim names (`Articles.csv`, `Locations.csv`) next to an unreadable
workbook yields the empty record set from the code, whereas the fallback
chain as worded by the spec would pick up the two flat files. -/
theorem c6_counterexample :
    load_raw_frames noSheets csvOnlyEnglish = none ∧
    load_raw_frames_spec noSheets csvOnlyEnglish
      = some ([("A", [some "1"])], [("L", [some "2"])]) := by
  refine ⟨by decide, by decide⟩

/-- Closed witness for `c6_ingestion_fallback`: with no readable worksheets
and no readable flat files the result is the empty record set. -/
theorem c6_witness :
    load_raw_data (fun a _ => a) noSheets noSheets = [] :=
  ((c6_ingestion_fallback (fun a _ => a) noSheets noSheets).2
    (Or.inl rfl)).2 (Or.inl rfl)

/-- C7 (amended): repeated resolution of the same composite key
(file, sheet, key-column, value-column) against the same file system
returns an identical table; when the first resolution successfully BUILT a
table (cache miss, file, sheet and both trimmed columns present), the
second call is answered from the cache without reading the workbook again
(failed resolutions are not cached and are re-attempted); and every
successful resolution yields the table built from its own named key and
value columns. -/
theorem c7_cache_idempotence (fs : String → Option (String → Option Sheet))
    (svc : MapSvc) (filename sheet keyH valH : String) :
    (get_mapping_dict fs
        (get_mapping_dict fs svc filename sheet keyH valH).svc
        filename sheet keyH valH).table
      = (get_mapping_dict fs svc filename sheet keyH valH).table ∧
    (∀ wb sh, assocGet svc.cache (filename, sheet, keyH, valH) = none →
      fs filename = some wb → wb sheet = some sh →
      keyH ∈ sh.header.map strip → valH ∈ sh.header.map strip →
      (get_mapping_dict fs svc filename sheet keyH valH).table
          = buildDict sh keyH valH ∧
      (get_mapping_dict fs
          (get_mapping_dict fs svc filename sheet keyH valH).svc
          filename sheet keyH valH).fromCache = true ∧
      (get_mapping_dict fs
          (get_mapping_dict fs svc filename sheet keyH valH).svc
          filename sheet keyH valH).didRead = false) := by
  constructor
  · cases h : assocGet svc.cache (filename, sheet, keyH, valH) with
    | some d => simp [get_mapping_dict, h]
    | none =>
      cases hf : fs filename with
      | none => simp [get_mapping_dict, h, hf]
      | some wb =>
        cases hw : wb sheet with
        | none => simp [get_mapping_dict, h, hf, hw]
        | some sh =>
          by_cases hc : keyH ∈ sh.header.map strip ∧ valH ∈ sh.header.map strip
          · simp [get_mapping_dict, h, hf, hw, hc, assocGet]
          · simp only [List.mem_map] at hc
            simp [get_mapping_dict, h, hf, hw, hc]
  · intro wb sh h hf hw hk hv
    have hc : keyH ∈ sh.header.map strip ∧ valH ∈ sh.header.map strip := ⟨hk, hv⟩
    refine ⟨?_, ?_, ?_⟩ <;>
      simp [get_mapping_dict, h, hf, hw, hc, assocGet]

/-- Counterexample to C7 as stated: when the first resolution FAILS (the
file and sheet exist but the requested key column `K` is absent from the
trimmed header), the empty result is not cached, and resolving the same
composite key a second time reads the source workbook again. -/
theorem c7_counterexample :
    (get_mapping_dict fsNoKeyCol ⟨[]⟩ "m.xlsx" "S" "K" "V").didRead = true ∧
    (get_mapping_dict fsNoKeyCol
        (get_mapping_dict fsNoKeyCol ⟨[]⟩ "m.xlsx" "S" "K" "V").svc
        "m.xlsx" "S" "K" "V").didRead = true ∧
    (get_mapping_dict fsNoKeyCol
        (get_mapping_dict fsNoKeyCol ⟨[]⟩ "m.xlsx" "S" "K" "V").svc
        "m.xlsx" "S" "K" "V").fromCache = false := by
  refine ⟨by decide, by decide, by decide⟩

/-- Closed witness for `c7_cache_idempotence`: after a successful build of
the table of sheet `S` in `m.xlsx`, the second resolution is a cache hit
that does not read the workbook. -/
theorem c7_witness :
    (get_mapping_dict fsKV ⟨[]⟩ "m.xlsx" "S" "K" "V").table
        = buildDict sheetKV "K" "V" ∧
    (get_mapping_dict fsKV
        (get_mapping_dict fsKV ⟨[]⟩ "m.xlsx" "S" "K" "V").svc
        "m.xlsx" "S" "K" "V").fromCache = true ∧
    (get_mapping_dict fsKV
        (get_mapping_dict fsKV ⟨[]⟩ "m.xlsx" "S" "K" "V").svc
        "m.xlsx" "S" "K" "V").didRead = false :=
  (c7_cache_idempotence fsKV ⟨[]⟩ "m.xlsx" "S" "K" "V").2 wbKV sheetKV
    (by decide) (by rfl) (by decide) (by decide) (by decide)

/-- C8 (amended): every failing mapping-table resolution — missing file,
missing sheet, or either named column absent after header trimming — yields
the empty table and never raises (the function is total); but the empty
result is NOT stored in the cache (the service state is unchanged), so a
repeated request with the same composite key attempts the resolution
again instead of being answered from the cache. -/
theorem c8_failure_empty (fs : String → Option (String → Option Sheet))
    (svc : MapSvc) (filename sheet keyH valH : String)
    (hmiss : assocGet svc.cache (filename, sheet, keyH, valH) = none)
    (hfail : fs filename = none ∨
      (∃ wb, fs filename = some wb ∧ wb sheet = none) ∨
      (∃ wb sh, fs filename = some wb ∧ wb sheet = some sh ∧
        ¬ (keyH ∈ sh.header.map strip ∧ valH ∈ sh.header.map strip))) :
    (get_mapping_dict fs svc filename sheet keyH valH).table = [] ∧
    (get_mapping_dict fs svc filename sheet keyH valH).svc = svc := by
  rcases hfail with hf | ⟨wb, hf, hw⟩ | ⟨wb, sh, hf, hw, hc⟩
  · simp [get_mapping_dict, hmiss, hf]
  · simp [get_mapping_dict, hmiss, hf, hw]
  · simp only [List.mem_map] at hc
    simp [get_mapping_dict, hmiss, hf, hw, hc]

/-- Counterexample to C8 as stated: after a failing resolution (no file at
all) the returned table is empty but the cache is still empty — the empty
result was NOT stored — and the repeated identical request is again not
answered from the cache. -/
theorem c8_counterexample :
    (get_mapping_dict fsEmpty ⟨[]⟩ "x.xlsx" "T" "K" "V").table = [] ∧
    (get_mapping_dict fsEmpty ⟨[]⟩ "x.xlsx" "T" "K" "V").svc.cache = [] ∧
    (get_mapping_dict fsEmpty
        (get_mapping_dict fsEmpty ⟨[]⟩ "x.xlsx" "T" "K" "V").svc
        "x.xlsx" "T" "K" "V").fromCache = false := by
  refine ⟨by decide, by decide, by decide⟩

/-- Closed witness for `c8_failure_empty`: the missing-key-column failure
on `fsNoKeyCol` returns the empty table and leaves the service state
untouched. -/
theorem c8_witness :
    (get_mapping_dict fsNoKeyCol ⟨[]⟩ "m.xlsx" "S" "Q" "V").table = [] ∧
    (get_mapping_dict fsNoKeyCol ⟨[]⟩ "m.xlsx" "S" "Q" "V").svc = ⟨[]⟩ :=
  c8_failure_empty fsNoKeyCol ⟨[]⟩ "m.xlsx" "S" "Q" "V" (by decide)
    (Or.inr (Or.inr ⟨fun s => if s = "S" then some sheetNoKeyCol else none,
      sheetNoKeyCol, rfl, rfl, by decide⟩))
